import Mathlib

/-!
# Verification of the NASA SUITS HUD placement and pinch-gesture detection

Shallow embedding of the camera-relative HUD placement routines
(`SpaceUI.updatePosition`, `UIManager.setupUITracking`, the UI-follow part of
`NASASuitsApp.animate`), the pinch classifier (`detectPinchGesture`,
`checkPinchGesture`, `isPinching`), the per-frame gesture state machine
(`handlePinchGesture`, `gestureHandler`), the panel toggles
(`toggleMapWindow`, `modal.toggle`, `toggleActionButtons`, `toggleMapModal`)
and the `SpaceUI` component registry (`createComponent`, `removeComponent`).

Vectors and quaternions carry exact rational coordinates; timestamps
(`Date.now()`) are integers in milliseconds.
-/

namespace NasaSuits

/-- A three.js `Vector3` with exact rational coordinates. -/
@[ext]
structure Vec3 where
  x : ℚ
  y : ℚ
  z : ℚ
deriving DecidableEq, Repr

/-- `Vector3.add`. -/
def Vec3.add (a b : Vec3) : Vec3 := ⟨a.x + b.x, a.y + b.y, a.z + b.z⟩

/-- `Vector3.multiplyScalar`. -/
def Vec3.multiplyScalar (v : Vec3) (s : ℚ) : Vec3 := ⟨v.x * s, v.y * s, v.z * s⟩

/-- The square of `Vector3.distanceTo`: `distanceTo` itself is
`Real.sqrt` of this quantity, which is how the theorems below state it. -/
def Vec3.distanceToSq (a b : Vec3) : ℚ :=
  (a.x - b.x) ^ 2 + (a.y - b.y) ^ 2 + (a.z - b.z) ^ 2

/-- A three.js `Quaternion` (x, y, z, w). -/
structure Quat where
  x : ℚ
  y : ℚ
  z : ℚ
  w : ℚ
deriving DecidableEq, Repr

/-- The identity quaternion, three.js's default orientation. -/
def Quat.identity : Quat := ⟨0, 0, 0, 1⟩

/-- three.js `Vector3.applyQuaternion`: rotate `v` by unit quaternion `q`
via `t = 2 (q.xyz × v)`, `v + q.w t + q.xyz × t`. -/
def Vec3.applyQuaternion (v : Vec3) (q : Quat) : Vec3 :=
  let tx : ℚ := 2 * (q.y * v.z - q.z * v.y)
  let ty : ℚ := 2 * (q.z * v.x - q.x * v.z)
  let tz : ℚ := 2 * (q.x * v.y - q.y * v.x)
  ⟨v.x + q.w * tx + q.y * tz - q.z * ty,
   v.y + q.w * ty + q.z * tx - q.x * tz,
   v.z + q.w * tz + q.x * ty - q.y * tx⟩

/-- World position and orientation of a scene-graph object
(camera or HUD root group). -/
structure Pose where
  position : Vec3
  quaternion : Quat
deriving DecidableEq, Repr

/-- The shared HUD-placement computation: forward = `(0,0,-1)` rotated by the
camera quaternion, target = camera position + forward · standoff, orientation
copied from the camera.  Instantiated with standoff `0.3` (and `0.5` in VR) by
`SpaceUI.updatePosition`, `2` by `UIManager.setupUITracking`'s `updateUI`, and
`1` by the UI-follow block of `NASASuitsApp.animate`. -/
def followCamera (standoff : ℚ) (camera : Pose) : Pose :=
  let cameraDirection := Vec3.applyQuaternion ⟨0, 0, -1⟩ camera.quaternion
  ⟨camera.position.add (cameraDirection.multiplyScalar standoff),
   camera.quaternion⟩

/-- `SpaceUI.updatePosition`: no-op when `this.root` is missing; otherwise
overwrite the root pose with the camera-anchored pose, standoff `0.5` when an
immersive session is presenting and `0.3` otherwise. -/
def SpaceUI.updatePosition (isVRPresenting : Bool) (camera : Pose)
    (root : Option Pose) : Option Pose :=
  match root with
  | none => none
  | some _ =>
    some (if isVRPresenting then followCamera (1/2) camera
          else followCamera (3/10) camera)

/-- The body of `updateUI` from `UIManager.setupUITracking` and of the
UI-follow block of `NASASuitsApp.animate`, as a transition on the `uiGroup`
pose: the previous pose is entirely overwritten (`position.copy`,
`quaternion.copy`), which the unused `_old` argument records. -/
def updateUIGroup (standoff : ℚ) (camera : Pose) (_old : Pose) : Pose :=
  followCamera standoff camera

/-- `UIManager.setupUITracking`'s `updateUI` closure (`uiDistance = 2`). -/
def UIManager.updateUI (camera : Pose) (old : Pose) : Pose :=
  updateUIGroup 2 camera old

/-- The UI-follow block of `NASASuitsApp.animate` (`uiDistance = 1`). -/
def animateUIFollow (camera : Pose) (old : Pose) : Pose :=
  updateUIGroup 1 camera old

/-- The two joint entries `detectPinchGesture` reads from `hand.joints`:
`joints['index-finger-tip'].position` and `joints['thumb-tip'].position`.
Each may be absent (tracking lost). -/
structure JointMap where
  indexFingerTip : Option Vec3
  thumbTip : Option Vec3
deriving DecidableEq, Repr

/-- An XR hand object: `hand.joints` itself may be absent. -/
structure Hand where
  joints : Option JointMap
deriving DecidableEq, Repr

/-- The pinch threshold of every observed variant: `0.02` metres (2 cm). -/
def pinchThreshold : ℚ := 2/100

/-- `NASASuitsApp.detectPinchGesture` (and the identical `checkPinchGesture`
closure and top-level `isPinching` helper): `false` when the hand, its joint
map, or either tip is missing, else `indexPos.distanceTo(thumbPos) < 0.02`.
Since both sides are nonnegative, `distanceTo < 0.02` is computed as
`distanceToSq < 0.02 ^ 2`; the equivalence with the square root form is
proved in `pinch_threshold_boundary`. -/
def detectPinchGesture (hand : Option Hand) : Bool :=
  match hand with
  | none => false
  | some h =>
    match h.joints with
    | none => false
    | some joints =>
      match joints.indexFingerTip, joints.thumbTip with
      | some indexPos, some thumbPos =>
        decide (Vec3.distanceToSq indexPos thumbPos < pinchThreshold ^ 2)
      | some _, none => false
      | none, _ => false

/-- A hand pose with both tips tracked at the given points. -/
def handAt (indexPos thumbPos : Vec3) : Option Hand :=
  some ⟨some ⟨some indexPos, some thumbPos⟩⟩

/-- The mutable state of `NASASuitsApp` touched by the gesture code: the
single pinch-state pair set up in `initializeApp` (`this.isPinching`,
`this.lastPinchTime`), the two UI components the bound actions toggle
(`none` when never created, otherwise their `visible` flag), and the two
pinch-indicator meshes. -/
structure AppState where
  isPinching : Bool
  lastPinchTime : ℤ
  actionButtons : Option Bool
  mapModal : Option Bool
  indicatorLeftVisible : Bool
  indicatorLeftPos : Vec3
  indicatorRightVisible : Bool
  indicatorRightPos : Vec3
deriving DecidableEq, Repr

/-- The state after `initializeApp` and `createNASASuitsUI`: pinch state
reset, both components created hidden, indicators hidden at the origin. -/
def AppState.init : AppState :=
  { isPinching := false
    lastPinchTime := 0
    actionButtons := some false
    mapModal := some false
    indicatorLeftVisible := false
    indicatorLeftPos := ⟨0, 0, 0⟩
    indicatorRightVisible := false
    indicatorRightPos := ⟨0, 0, 0⟩ }

/-- `NASASuitsApp.toggleActionButtons`: if the component was created, flip its
`visible` flag via its `toggle()` and return the new flag, else return
`false` without touching anything. -/
def AppState.toggleActionButtons (s : AppState) : AppState × Bool :=
  match s.actionButtons with
  | some v => ({ s with actionButtons := some (!v) }, !v)
  | none => (s, false)

/-- `NASASuitsApp.toggleMapModal`, same shape as `toggleActionButtons`. -/
def AppState.toggleMapModal (s : AppState) : AppState × Bool :=
  match s.mapModal with
  | some v => ({ s with mapModal := some (!v) }, !v)
  | none => (s, false)

/-- `indicator.position.copy(midpoint); indicator.visible = true` on the
left or right pinch indicator. -/
def AppState.showIndicator (isLeft : Bool) (midpoint : Vec3) (s : AppState) :
    AppState :=
  if isLeft then
    { s with indicatorLeftVisible := true, indicatorLeftPos := midpoint }
  else
    { s with indicatorRightVisible := true, indicatorRightPos := midpoint }

/-- `indicator.visible = false` on the left or right pinch indicator. -/
def AppState.hideIndicator (isLeft : Bool) (s : AppState) : AppState :=
  if isLeft then { s with indicatorLeftVisible := false }
  else { s with indicatorRightVisible := false }

/-- `NASASuitsApp.handlePinchGesture` (the variant that binds the toggle
actions; the `main.js` copy is identical except its transition only logs).
`joints` is the `hand.joints` map (the caller `animate` only invokes the
handler when `hand && hand.joints`), `isPinchingNow` the classifier result
passed in, `now` is `Date.now()`.  Returns the new state and whether the
bound toggle action fired on this invocation. -/
def handlePinchGesture (joints : JointMap) (isPinchingNow isLeft : Bool)
    (now : ℤ) (s : AppState) : AppState × Bool :=
  if isPinchingNow then
    match joints.indexFingerTip, joints.thumbTip with
    | some indexPos, some thumbPos =>
      let midpoint := (indexPos.add thumbPos).multiplyScalar (1/2)
      let s1 := s.showIndicator isLeft midpoint
      if !s1.isPinching && decide (now - s1.lastPinchTime > 500) then
        let s2 := { s1 with isPinching := true }
        if isLeft then (s2.toggleActionButtons.1, true)
        else (s2.toggleMapModal.1, true)
      else (s1, false)
    | _, _ => (s, false)
  else
    let s1 := s.hideIndicator isLeft
    if s1.isPinching then
      ({ s1 with isPinching := false, lastPinchTime := now }, false)
    else (s1, false)

/-- One per-frame input to the gesture block of `NASASuitsApp.animate`:
the frame's `Date.now()` and the two tracked hands (absent when tracking
is lost). -/
structure Frame where
  now : ℤ
  handLeft : Option Hand
  handRight : Option Hand
deriving DecidableEq, Repr

/-- The per-hand part of `animate`'s gesture block: only when the hand and
its joint map exist, classify with `detectPinchGesture` and run
`handlePinchGesture`. -/
def animateHand (isLeft : Bool) (now : ℤ) (hand : Option Hand)
    (s : AppState) : AppState × Bool :=
  match hand with
  | some h =>
    match h.joints with
    | some joints =>
      handlePinchGesture joints (detectPinchGesture hand) isLeft now s
    | none => (s, false)
  | none => (s, false)

/-- The gesture block of `NASASuitsApp.animate`: left hand first, then
right, threading the single shared `AppState`.  Returns the new state and
whether the left / right invocation fired the bound action. -/
def animateFrame (f : Frame) (s : AppState) : AppState × Bool × Bool :=
  let r1 := animateHand true f.now f.handLeft s
  let r2 := animateHand false f.now f.handRight r1.1
  (r2.1, r1.2, r2.2)

/-- Run the gesture block over a sequence of frames, counting how many times
the bound action fired from the left and from the right hand. -/
def runFrames : List Frame → AppState → AppState × ℕ × ℕ
  | [], s => (s, 0, 0)
  | f :: rest, s =>
    let r1 := animateFrame f s
    let r2 := runFrames rest r1.1
    (r2.1, (if r1.2.1 then 1 else 0) + r2.2.1,
     (if r1.2.2 then 1 else 0) + r2.2.2)

/-- The closure state of the `sessionstart` gesture tracking in `main.js`:
the module-level `lastPinchTime` 'let' plus the two toggleable components of
the app the bound actions reach. -/
structure ClosureState where
  lastPinchTime : ℤ
  actionButtons : Option Bool
  mapModal : Option Bool
deriving DecidableEq, Repr

/-- The body of `main.js`'s `gestureHandler` for one tracked hand: if
`checkPinchGesture(hand)` (same computation as `detectPinchGesture`) and
more than 500 ms have passed since `lastPinchTime`, record
`lastPinchTime = now` and invoke the bound toggle (left hand: action
buttons, right hand: map modal).  There is no `isPinching` edge detection
here.  The returned flag says whether the bound toggle was invoked. -/
def gestureHandlerStep (now : ℤ) (isLeft : Bool) (hand : Option Hand)
    (s : ClosureState) : ClosureState × Bool :=
  if detectPinchGesture hand then
    if decide (now - s.lastPinchTime > 500) then
      let s1 := { s with lastPinchTime := now }
      if isLeft then
        match s1.actionButtons with
        | some v => ({ s1 with actionButtons := some (!v) }, true)
        | none => (s1, true)
      else
        match s1.mapModal with
        | some v => ({ s1 with mapModal := some (!v) }, true)
        | none => (s1, true)
    else (s, false)
  else (s, false)

/-- `gestureHandler`'s `hands.forEach((source, index) => ...)`: the hand at
index 0 is treated as the left hand.  Returns the new closure state and how
many bound-toggle invocations the frame produced. -/
def gestureHandlerHands (now : ℤ) (idx : ℕ) :
    List (Option Hand) → ClosureState → ClosureState × ℕ
  | [], s => (s, 0)
  | hand :: rest, s =>
    let r1 := gestureHandlerStep now (idx == 0) hand s
    let r2 := gestureHandlerHands now (idx + 1) rest r1.1
    (r2.1, (if r1.2 then 1 else 0) + r2.2)

/-- Run `gestureHandler` over successive animation frames, each frame giving
`Date.now()` and the tracked hands, counting bound-toggle invocations. -/
def runGestureHandler :
    List (ℤ × List (Option Hand)) → ClosureState → ClosureState × ℕ
  | [], s => (s, 0)
  | f :: rest, s =>
    let r1 := gestureHandlerHands f.1 0 f.2 s
    let r2 := runGestureHandler rest r1.1
    (r2.1, r1.2 + r2.2)

/-- The state `UIManager.toggleMapWindow` touches: the manager's
`mapWindowVisible` flag and the `mapWindow` group's `visible` flag. -/
structure MapWindowState where
  mapWindowVisible : Bool
  meshVisible : Bool
deriving DecidableEq, Repr

/-- `UIManager.toggleMapWindow(visible = null)`: with no argument flip the
flag, with an explicit argument set it; copy it onto the mesh and return
it. -/
def toggleMapWindow (visible : Option Bool) (s : MapWindowState) :
    MapWindowState × Bool :=
  let v : Bool :=
    match visible with
    | none => !s.mapWindowVisible
    | some b => b
  (⟨v, v⟩, v)

/-- `modal.toggle` from `SpaceUI.createModal`: parameterless flip of
`modal.visible`, returning the resulting state. -/
def modalToggle (visible : Bool) : Bool × Bool := (!visible, !visible)

/-- The `SpaceUI` component registry: `this.components` (an insertion-ordered
`Map` from id to component), `this.root.children`, the identities already
disposed, and a supply of fresh identities standing for `new THREE.Group()`
allocations. -/
structure SpaceUIRegistry where
  components : List (String × ℕ)
  rootChildren : List ℕ
  disposed : List ℕ
  nextComp : ℕ
deriving DecidableEq, Repr

/-- The registry of a freshly constructed `SpaceUI`. -/
def SpaceUIRegistry.init : SpaceUIRegistry := ⟨[], [], [], 0⟩

/-- JS `Map.has`. -/
def mapHas (m : List (String × ℕ)) (id : String) : Bool :=
  m.any fun p => p.1 == id

/-- JS `Map.get` (`none` for a missing key). -/
def mapGet (m : List (String × ℕ)) (id : String) : Option ℕ :=
  (m.find? fun p => p.1 == id).map fun p => p.2

/-- JS `Map.set`: overwrite in place when the key exists, else append in
insertion order. -/
def mapSet (m : List (String × ℕ)) (id : String) (v : ℕ) :
    List (String × ℕ) :=
  if mapHas m id then m.map fun p => if p.1 == id then (id, v) else p
  else m ++ [(id, v)]

/-- JS `Map.delete`: drop the (unique) entry with the key. -/
def mapDelete (m : List (String × ℕ)) (id : String) : List (String × ℕ) :=
  m.eraseP fun p => p.1 == id

/-- `SpaceUI.removeComponent`: when the id is registered, detach the
component from the root, dispose its resources, and delete the registry
entry. -/
def removeComponent (id : String) (s : SpaceUIRegistry) : SpaceUIRegistry :=
  match mapGet s.components id with
  | some component =>
    { s with
      rootChildren := s.rootChildren.erase component
      disposed := s.disposed ++ [component]
      components := mapDelete s.components id }
  | none => s

/-- `SpaceUI.createComponent`: first remove any existing component with the
same id, then allocate a fresh group, register it and add it to the root. -/
def createComponent (id : String) (s : SpaceUIRegistry) : SpaceUIRegistry :=
  let s1 := if mapHas s.components id then removeComponent id s else s
  let component := s1.nextComp
  { s1 with
    components := mapSet s1.components id component
    rootChildren := s1.rootChildren ++ [component]
    nextComp := s1.nextComp + 1 }

/-- A call against the `SpaceUI` registry. -/
inductive UIOp where
  | create (id : String)
  | remove (id : String)
deriving DecidableEq, Repr

/-- Run a sequence of `createComponent` / `removeComponent` calls. -/
def runOps : List UIOp → SpaceUIRegistry → SpaceUIRegistry
  | [], s => s
  | UIOp.create id :: rest, s => runOps rest (createComponent id s)
  | UIOp.remove id :: rest, s => runOps rest (removeComponent id s)

/-- Registry integrity: the root's children are exactly the registered
components in insertion order, ids are unregistered at most once each,
component identities are distinct, and `nextComp` is really fresh. -/
def RegistryInv (s : SpaceUIRegistry) : Prop :=
  s.rootChildren = s.components.map Prod.snd
  ∧ (s.components.map Prod.fst).Nodup
  ∧ (s.components.map Prod.snd).Nodup
  ∧ ∀ c ∈ s.components.map Prod.snd, c < s.nextComp

instance (s : SpaceUIRegistry) : Decidable (RegistryInv s) := by
  unfold RegistryInv; infer_instance

end NasaSuits

namespace NasaSuits

/-- C1: with the non-immersive camera at `(0, 1.6, 3)`, identity orientation
(looking down `-Z`) and standoff `0.3`, `SpaceUI.updatePosition` places the
HUD root at `(0, 1.6, 2.7)` with exactly the camera's orientation, whatever
pose the root had before. -/
theorem hud_placement_determinism :
    ∀ old : Pose,
      SpaceUI.updatePosition false ⟨⟨0, 8/5, 3⟩, Quat.identity⟩ (some old)
        = some ⟨⟨0, 8/5, 27/10⟩, Quat.identity⟩ := by
  intro old
  simp only [SpaceUI.updatePosition, followCamera, Vec3.applyQuaternion,
    Vec3.add, Vec3.multiplyScalar, Quat.identity, if_false, Bool.false_eq_true]
  norm_num

/-- C2: the HUD placement is a pure function of the current camera pose: the
previous HUD pose is irrelevant (no residual state), re-running with the same
camera pose changes nothing (idempotent), and translating the camera by any
delta with unchanged orientation translates the HUD root by exactly that
delta. Stated for every standoff distance, covering all variants. -/
theorem hud_placement_reanchoring :
    ∀ (standoff : ℚ) (camera : Pose) (delta : Vec3) (g g' : Pose),
      updateUIGroup standoff camera g = updateUIGroup standoff camera g'
      ∧ updateUIGroup standoff camera (updateUIGroup standoff camera g)
          = updateUIGroup standoff camera g
      ∧ (updateUIGroup standoff
            ⟨camera.position.add delta, camera.quaternion⟩ g).position
          = (updateUIGroup standoff camera g).position.add delta
      ∧ (updateUIGroup standoff
            ⟨camera.position.add delta, camera.quaternion⟩ g).quaternion
          = (updateUIGroup standoff camera g).quaternion := by
  intro standoff camera delta g g'
  refine ⟨rfl, rfl, ?_, rfl⟩
  simp only [updateUIGroup, followCamera, Vec3.applyQuaternion, Vec3.add,
    Vec3.multiplyScalar]
  ext <;> ring

/-- C3: on two tracked tip positions the classifier reports pinching exactly
when the Euclidean distance (the square root of `distanceToSq`) is strictly
below `0.02`; a distance of exactly `0.02` is not a pinch, `0.0199` is. -/
theorem pinch_threshold_boundary :
    (∀ indexPos thumbPos : Vec3,
        detectPinchGesture (handAt indexPos thumbPos) = true
          ↔ Real.sqrt ((Vec3.distanceToSq indexPos thumbPos : ℚ) : ℝ)
              < 2/100)
    ∧ detectPinchGesture (handAt ⟨0, 0, 0⟩ ⟨1/50, 0, 0⟩) = false
    ∧ detectPinchGesture (handAt ⟨0, 0, 0⟩ ⟨199/10000, 0, 0⟩) = true := by
  refine ⟨fun indexPos thumbPos => ?_, ?_, ?_⟩
  · rw [Real.sqrt_lt' (by norm_num : (0:ℝ) < 2/100)]
    simp only [detectPinchGesture, handAt, decide_eq_true_eq, pinchThreshold]
    rw [show ((2:ℝ)/100) ^ 2 = (((2/100 : ℚ) ^ 2 : ℚ) : ℝ) by push_cast; ring]
    exact_mod_cast Iff.rfl
  · simp only [detectPinchGesture, handAt, Vec3.distanceToSq, pinchThreshold,
      decide_eq_false_iff_not, not_lt]
    norm_num
  · simp only [detectPinchGesture, handAt, Vec3.distanceToSq, pinchThreshold,
      decide_eq_true_eq]
    norm_num

/-- C4: whenever the hand, its joint map, or either tracked tip is absent,
`detectPinchGesture` evaluates (it is a total function, so it cannot throw)
and reports not-pinching. -/
theorem pinch_missing_joint_graceful :
    ∀ hand : Option Hand,
      (hand = none
        ∨ ∃ h, hand = some h
            ∧ (h.joints = none
              ∨ ∃ joints, h.joints = some joints
                  ∧ (joints.indexFingerTip = none ∨ joints.thumbTip = none)))
      → detectPinchGesture hand = false := by
  rintro hand (rfl | ⟨h, rfl, hj | ⟨joints, hj, hi | ht⟩⟩)
  · rfl
  · simp [detectPinchGesture, hj]
  · simp [detectPinchGesture, hj, hi]
  · cases hidx : joints.indexFingerTip <;>
      simp [detectPinchGesture, hj, ht, hidx]

/-- Witness for C4: a hand whose thumb tip is lost classifies as
not pinching. -/
theorem pinch_missing_joint_graceful_witness :
    detectPinchGesture (some ⟨some ⟨some ⟨0, 0, 0⟩, none⟩⟩) = false :=
  pinch_missing_joint_graceful (some ⟨some ⟨some ⟨0, 0, 0⟩, none⟩⟩)
    (Or.inr ⟨⟨some ⟨some ⟨0, 0, 0⟩, none⟩⟩, rfl,
      Or.inr ⟨⟨some ⟨0, 0, 0⟩, none⟩, rfl, Or.inr rfl⟩⟩)

@[simp]
lemma showIndicator_isPinching (b : Bool) (m : Vec3) (s : AppState) :
    (s.showIndicator b m).isPinching = s.isPinching := by
  cases b <;> rfl

@[simp]
lemma showIndicator_lastPinchTime (b : Bool) (m : Vec3) (s : AppState) :
    (s.showIndicator b m).lastPinchTime = s.lastPinchTime := by
  cases b <;> rfl

@[simp]
lemma hideIndicator_isPinching (b : Bool) (s : AppState) :
    (s.hideIndicator b).isPinching = s.isPinching := by
  cases b <;> rfl

@[simp]
lemma hideIndicator_lastPinchTime (b : Bool) (s : AppState) :
    (s.hideIndicator b).lastPinchTime = s.lastPinchTime := by
  cases b <;> rfl

@[simp]
lemma toggleActionButtons_isPinching (s : AppState) :
    s.toggleActionButtons.1.isPinching = s.isPinching := by
  cases h : s.actionButtons <;> simp [AppState.toggleActionButtons, h]

@[simp]
lemma toggleActionButtons_lastPinchTime (s : AppState) :
    s.toggleActionButtons.1.lastPinchTime = s.lastPinchTime := by
  cases h : s.actionButtons <;> simp [AppState.toggleActionButtons, h]

@[simp]
lemma toggleMapModal_isPinching (s : AppState) :
    s.toggleMapModal.1.isPinching = s.isPinching := by
  cases h : s.mapModal <;> simp [AppState.toggleMapModal, h]

@[simp]
lemma toggleMapModal_lastPinchTime (s : AppState) :
    s.toggleMapModal.1.lastPinchTime = s.lastPinchTime := by
  cases h : s.mapModal <;> simp [AppState.toggleMapModal, h]

/-- A classified pinch exhibits both tracked tips within the threshold. -/
lemma detect_true_elim {hand : Option Hand}
    (h : detectPinchGesture hand = true) :
    ∃ a b, hand = some ⟨some ⟨some a, some b⟩⟩
      ∧ Vec3.distanceToSq a b < pinchThreshold ^ 2 := by
  match hand with
  | none => simp [detectPinchGesture] at h
  | some ⟨none⟩ => simp [detectPinchGesture] at h
  | some ⟨some ⟨none, t⟩⟩ => simp [detectPinchGesture] at h
  | some ⟨some ⟨some a, none⟩⟩ => simp [detectPinchGesture] at h
  | some ⟨some ⟨some a, some b⟩⟩ =>
    refine ⟨a, b, rfl, ?_⟩
    simpa [detectPinchGesture] using h

@[simp]
lemma animateHand_none (isLeft : Bool) (now : ℤ) (s : AppState) :
    animateHand isLeft now none s = (s, false) := rfl

/-- First frame of a pinch from the idle state, past the debounce window:
the bound action fires, the machine enters `pinching`, and `lastPinchTime`
is left alone (it is only written on release). -/
lemma animateHand_fire (isLeft : Bool) (now : ℤ) (hand : Option Hand)
    (s : AppState) (hd : detectPinchGesture hand = true)
    (hidle : s.isPinching = false)
    (hready : now - s.lastPinchTime > 500) :
    (animateHand isLeft now hand s).2 = true
    ∧ (animateHand isLeft now hand s).1.isPinching = true
    ∧ (animateHand isLeft now hand s).1.lastPinchTime = s.lastPinchTime := by
  obtain ⟨a, b, rfl, -⟩ := detect_true_elim hd
  rw [animateHand, hd]
  cases isLeft <;>
    simp [handlePinchGesture, hidle, hready]

/-- A pinching frame while already in the `pinching` state: nothing fires
and the machine state is unchanged. -/
lemma animateHand_held (isLeft : Bool) (now : ℤ) (hand : Option Hand)
    (s : AppState) (hd : detectPinchGesture hand = true)
    (hp : s.isPinching = true) :
    (animateHand isLeft now hand s).2 = false
    ∧ (animateHand isLeft now hand s).1.isPinching = true
    ∧ (animateHand isLeft now hand s).1.lastPinchTime = s.lastPinchTime := by
  obtain ⟨a, b, rfl, -⟩ := detect_true_elim hd
  rw [animateHand, hd]
  simp [handlePinchGesture, hp]

/-- A pinching frame from idle while still inside the debounce window:
nothing fires and the machine does not enter `pinching`. -/
lemma animateHand_blocked (isLeft : Bool) (now : ℤ) (hand : Option Hand)
    (s : AppState) (hd : detectPinchGesture hand = true)
    (hidle : s.isPinching = false)
    (hlate : ¬ now - s.lastPinchTime > 500) :
    (animateHand isLeft now hand s).2 = false
    ∧ (animateHand isLeft now hand s).1.isPinching = false
    ∧ (animateHand isLeft now hand s).1.lastPinchTime = s.lastPinchTime := by
  obtain ⟨a, b, rfl, -⟩ := detect_true_elim hd
  rw [animateHand, hd]
  simp [handlePinchGesture, hidle, hlate]

/-- A non-pinching frame of a tracked hand while in the `pinching` state:
nothing fires, the machine returns to idle and records the release time. -/
lemma animateHand_release (isLeft : Bool) (now : ℤ) (joints : JointMap)
    (s : AppState)
    (hd : detectPinchGesture (some ⟨some joints⟩) = false)
    (hp : s.isPinching = true) :
    (animateHand isLeft now (some ⟨some joints⟩) s).2 = false
    ∧ (animateHand isLeft now (some ⟨some joints⟩) s).1.isPinching = false
    ∧ (animateHand isLeft now (some ⟨some joints⟩) s).1.lastPinchTime
        = now := by
  rw [animateHand, hd]
  simp [handlePinchGesture, hp]

/-- Splitting a frame run over list append. -/
lemma runFrames_append (l1 l2 : List Frame) (s : AppState) :
    runFrames (l1 ++ l2) s
      = ((runFrames l2 (runFrames l1 s).1).1,
         (runFrames l1 s).2.1 + (runFrames l2 (runFrames l1 s).1).2.1,
         (runFrames l1 s).2.2 + (runFrames l2 (runFrames l1 s).1).2.2) := by
  induction l1 generalizing s with
  | nil => simp [runFrames]
  | cons f rest ih =>
    simp [runFrames, ih, Nat.add_assoc]

/-- A run of left-hand-only frames that all classify as pinching, starting
in the `pinching` state: nothing fires and the machine state is
preserved. -/
lemma runFrames_held (held : List (ℤ × Option Hand)) (s : AppState)
    (hall : ∀ p ∈ held, detectPinchGesture p.2 = true)
    (hp : s.isPinching = true) :
    (runFrames (held.map fun p => ⟨p.1, p.2, none⟩) s).1.isPinching = true
    ∧ (runFrames (held.map fun p => ⟨p.1, p.2, none⟩) s).1.lastPinchTime
        = s.lastPinchTime
    ∧ (runFrames (held.map fun p => ⟨p.1, p.2, none⟩) s).2.1 = 0
    ∧ (runFrames (held.map fun p => ⟨p.1, p.2, none⟩) s).2.2 = 0 := by
  induction held generalizing s with
  | nil => simpa [runFrames]
  | cons p rest ih =>
    have hdp : detectPinchGesture p.2 = true := hall p (List.mem_cons_self p rest)
    obtain ⟨hf, hpin, hlast⟩ := animateHand_held true p.1 p.2 s hdp hp
    have hrest : ∀ q ∈ rest, detectPinchGesture q.2 = true :=
      fun q hq => hall q (List.mem_cons_of_mem p hq)
    obtain ⟨ih1, ih2, ih3, ih4⟩ :=
      ih ((animateHand true p.1 p.2 s).1) hrest hpin
    refine ⟨?_, ?_, ?_, ?_⟩ <;>
      simp [runFrames, animateFrame, hf, ih1, ih2, ih3, ih4, hlast]

/-- Unfolding one frame of `runFrames`. -/
lemma runFrames_cons (f : Frame) (rest : List Frame) (s : AppState) :
    runFrames (f :: rest) s
      = ((runFrames rest (animateFrame f s).1).1,
         (if (animateFrame f s).2.1 then 1 else 0)
           + (runFrames rest (animateFrame f s).1).2.1,
         (if (animateFrame f s).2.2 then 1 else 0)
           + (runFrames rest (animateFrame f s).1).2.2) := rfl

/-- A frame with no tracked right hand only runs the left-hand handler. -/
lemma animateFrame_noRight (now : ℤ) (hl : Option Hand) (s : AppState) :
    animateFrame ⟨now, hl, none⟩ s
      = ((animateHand true now hl s).1, (animateHand true now hl s).2,
         false) := by
  simp [animateFrame]

/-- Both tips at the origin: a pinch (distance 0). -/
lemma detect_zero_zero :
    detectPinchGesture (some ⟨some ⟨some ⟨0, 0, 0⟩, some ⟨0, 0, 0⟩⟩⟩)
      = true := by
  norm_num [detectPinchGesture, Vec3.distanceToSq, pinchThreshold]

/-- Tips one metre apart: not a pinch. -/
lemma detect_zero_unit :
    detectPinchGesture (some ⟨some ⟨some ⟨0, 0, 0⟩, some ⟨1, 0, 0⟩⟩⟩)
      = false := by
  norm_num [detectPinchGesture, Vec3.distanceToSq, pinchThreshold]

/-- C5: a pinch-down past the debounce window, held for any number of
frames, released, and pinched down again within 500 ms of the first
pinch-down fires the bound toggle action exactly once in total: the second
pinch-down is debounced. -/
theorem pinch_debounce_single_fire
    (s0 : AppState) (t1 t2 t3 : ℤ) (hdown hdown2 : Option Hand)
    (jointsOpen : JointMap) (held : List (ℤ × Option Hand))
    (hidle : s0.isPinching = false)
    (hready : t1 - s0.lastPinchTime > 500)
    (hd1 : detectPinchGesture hdown = true)
    (hheld : ∀ p ∈ held, detectPinchGesture p.2 = true)
    (hrel : detectPinchGesture (some ⟨some jointsOpen⟩) = false)
    (hd2 : detectPinchGesture hdown2 = true)
    (h12 : t1 < t2) (_h23 : t2 < t3) (hwithin : t3 - t1 ≤ 500) :
    (runFrames
       (⟨t1, hdown, none⟩ ::
         ((held.map fun p => ⟨p.1, p.2, none⟩) ++
           [⟨t2, some ⟨some jointsOpen⟩, none⟩, ⟨t3, hdown2, none⟩])) s0).2.1
      = 1 := by
  obtain ⟨hf1, hp1, hl1⟩ := animateHand_fire true t1 hdown s0 hd1 hidle hready
  obtain ⟨hH1, hH2, hH3, hH4⟩ :=
    runFrames_held held ((animateHand true t1 hdown s0).1) hheld hp1
  obtain ⟨hf2, hp2, hl2⟩ :=
    animateHand_release true t2 jointsOpen
      ((runFrames (held.map fun p => ⟨p.1, p.2, none⟩)
        ((animateHand true t1 hdown s0).1)).1) hrel hH1
  obtain ⟨hf3, hp3, hl3⟩ :=
    animateHand_blocked true t3 hdown2
      ((animateHand true t2 (some ⟨some jointsOpen⟩)
        ((runFrames (held.map fun p => ⟨p.1, p.2, none⟩)
          ((animateHand true t1 hdown s0).1)).1)).1) hd2 hp2
      (by rw [hl2]; omega)
  simp [runFrames_cons, animateFrame_noRight, runFrames_append, hf1, hf2,
    hf3, hH3, runFrames]

/-- Witness for C5: from the initial app state, pinch at 600 ms, release at
700 ms, pinch again at 1000 ms: one firing in total. -/
theorem pinch_debounce_single_fire_witness :
    (runFrames
       [⟨600, handAt ⟨0, 0, 0⟩ ⟨0, 0, 0⟩, none⟩,
        ⟨700, handAt ⟨0, 0, 0⟩ ⟨1, 0, 0⟩, none⟩,
        ⟨1000, handAt ⟨0, 0, 0⟩ ⟨0, 0, 0⟩, none⟩] AppState.init).2.1 = 1 := by
  have h :=
    pinch_debounce_single_fire AppState.init 600 700 1000
      (handAt ⟨0, 0, 0⟩ ⟨0, 0, 0⟩) (handAt ⟨0, 0, 0⟩ ⟨0, 0, 0⟩)
      ⟨some ⟨0, 0, 0⟩, some ⟨1, 0, 0⟩⟩ [] rfl (by decide)
      detect_zero_zero (by simp) detect_zero_unit detect_zero_zero
      (by decide) (by decide) (by decide)
  simpa [handAt] using h

/-- C6 (amended part): for the edge-triggered `handlePinchGesture`, a pinch
that starts past the debounce window and is then held continuously (every
following frame still classifies as pinching) fires the bound toggle action
exactly once, however long it is held. -/
theorem pinch_hold_fires_once
    (s0 : AppState) (t1 : ℤ) (hand1 : Option Hand)
    (rest : List (ℤ × Option Hand))
    (hidle : s0.isPinching = false)
    (hready : t1 - s0.lastPinchTime > 500)
    (hd1 : detectPinchGesture hand1 = true)
    (hrest : ∀ p ∈ rest, detectPinchGesture p.2 = true) :
    (runFrames (⟨t1, hand1, none⟩ :: rest.map fun p => ⟨p.1, p.2, none⟩)
      s0).2.1 = 1 := by
  obtain ⟨hf1, hp1, hl1⟩ := animateHand_fire true t1 hand1 s0 hd1 hidle hready
  obtain ⟨hH1, hH2, hH3, hH4⟩ :=
    runFrames_held rest ((animateHand true t1 hand1 s0).1) hrest hp1
  simp [runFrames_cons, animateFrame_noRight, hf1, hH3]

/-- Witness for C6's amended theorem: a pinch at 501 ms held through 750 ms
and 5000 ms fires once. -/
theorem pinch_hold_fires_once_witness :
    (runFrames
       [⟨501, handAt ⟨0, 0, 0⟩ ⟨0, 0, 0⟩, none⟩,
        ⟨750, handAt ⟨0, 0, 0⟩ ⟨0, 0, 0⟩, none⟩,
        ⟨5000, handAt ⟨0, 0, 0⟩ ⟨0, 0, 0⟩, none⟩] AppState.init).2.1 = 1 := by
  have h :=
    pinch_hold_fires_once AppState.init 501 (handAt ⟨0, 0, 0⟩ ⟨0, 0, 0⟩)
      [(750, handAt ⟨0, 0, 0⟩ ⟨0, 0, 0⟩), (5000, handAt ⟨0, 0, 0⟩ ⟨0, 0, 0⟩)]
      rfl (by decide) detect_zero_zero
      (by
        intro p hp
        rcases List.mem_cons.mp hp with rfl | hp2
        · simpa using detect_zero_zero
        · rcases List.mem_cons.mp hp2 with rfl | hp3
          · simpa using detect_zero_zero
          · simp at hp3)
  simpa using h

/-- C6 (counterexample): in `main.js`'s frame-polling `gestureHandler` a
pinch held continuously across frames at 501 ms, 750 ms and 1002 ms invokes
the bound toggle action twice, not exactly once: the handler re-fires
whenever more than 500 ms have passed since the last firing, with no
idle→pinching edge detection. -/
theorem gestureHandler_refires_on_hold :
    (runGestureHandler
       [(501, [handAt ⟨0, 0, 0⟩ ⟨0, 0, 0⟩]),
        (750, [handAt ⟨0, 0, 0⟩ ⟨0, 0, 0⟩]),
        (1002, [handAt ⟨0, 0, 0⟩ ⟨0, 0, 0⟩])]
       ⟨0, some false, some false⟩).2 = 2 := by
  simp [runGestureHandler, gestureHandlerHands, gestureHandlerStep, handAt,
    detect_zero_zero]

/-- C7 (amended part): `handlePinchGesture` drives a single state machine
shared by both hands: the `isPinching` flag, the `lastPinchTime` timestamp
and whether the bound action fires do not depend on which hand the handler
is invoked for. -/
theorem gesture_state_shared_machine :
    ∀ (joints : JointMap) (raw : Bool) (now : ℤ) (s : AppState)
      (isLeftA isLeftB : Bool),
      (handlePinchGesture joints raw isLeftA now s).1.isPinching
        = (handlePinchGesture joints raw isLeftB now s).1.isPinching
      ∧ (handlePinchGesture joints raw isLeftA now s).1.lastPinchTime
        = (handlePinchGesture joints raw isLeftB now s).1.lastPinchTime
      ∧ (handlePinchGesture joints raw isLeftA now s).2
        = (handlePinchGesture joints raw isLeftB now s).2 := by
  intro joints raw now s isLeftA isLeftB
  unfold handlePinchGesture
  cases raw
  · by_cases hp : s.isPinching <;>
      cases isLeftA <;> cases isLeftB <;>
        simp [hp, AppState.hideIndicator]
  · cases h1 : joints.indexFingerTip <;> cases h2 : joints.thumbTip <;>
      simp [h1, h2] <;>
      cases isLeftA <;> cases isLeftB <;>
      by_cases hp : s.isPinching <;>
      by_cases ht : now - s.lastPinchTime > 500 <;>
      simp [hp, ht]

/-- C7 (counterexample): the gesture state is shared, not per-hand.  Two
frame traces with identical left-hand input, differing only in that the
second trace's middle frame also tracks a non-pinching right hand, yield
different left-hand firing counts (2 versus 1): the right hand's release
path resets the shared `isPinching`/`lastPinchTime`, letting the held left
pinch fire again. -/
theorem gesture_state_crosstalk :
    ([⟨600, handAt ⟨0, 0, 0⟩ ⟨0, 0, 0⟩, handAt ⟨0, 0, 0⟩ ⟨1, 0, 0⟩⟩]
        : List Frame).map Frame.handLeft
      = ([⟨600, handAt ⟨0, 0, 0⟩ ⟨0, 0, 0⟩, none⟩] : List Frame).map
          Frame.handLeft
    ∧ (runFrames
         [⟨600, handAt ⟨0, 0, 0⟩ ⟨0, 0, 0⟩, none⟩,
          ⟨700, handAt ⟨0, 0, 0⟩ ⟨0, 0, 0⟩, handAt ⟨0, 0, 0⟩ ⟨1, 0, 0⟩⟩,
          ⟨1300, handAt ⟨0, 0, 0⟩ ⟨0, 0, 0⟩, none⟩] AppState.init).2.1 = 2
    ∧ (runFrames
         [⟨600, handAt ⟨0, 0, 0⟩ ⟨0, 0, 0⟩, none⟩,
          ⟨700, handAt ⟨0, 0, 0⟩ ⟨0, 0, 0⟩, none⟩,
          ⟨1300, handAt ⟨0, 0, 0⟩ ⟨0, 0, 0⟩, none⟩] AppState.init).2.1 = 1 := by
  refine ⟨rfl, ?_, ?_⟩ <;>
    simp [runFrames, animateFrame, animateHand, handAt, detect_zero_zero,
      detect_zero_unit, handlePinchGesture, AppState.init,
      AppState.showIndicator, AppState.hideIndicator,
      AppState.toggleActionButtons, AppState.toggleMapModal]

/-- C8: `toggleMapWindow` with the explicit state `true` sets the visibility
flag to `true` and returns it; a second identical call returns `true` again
and leaves the state exactly as the first call did (only the flag
assignment, no further change); a parameterless call flips the flag, copies
it to the mesh and returns it; `modal.toggle` likewise flips and returns. -/
theorem toggle_explicit_state_idempotent :
    ∀ s : MapWindowState,
      (toggleMapWindow (some true) s).2 = true
      ∧ (toggleMapWindow (some true) s).1.mapWindowVisible = true
      ∧ toggleMapWindow (some true) (toggleMapWindow (some true) s).1
          = ((toggleMapWindow (some true) s).1, true)
      ∧ (toggleMapWindow none s).2 = !s.mapWindowVisible
      ∧ (toggleMapWindow none s).1.mapWindowVisible = !s.mapWindowVisible
      ∧ (toggleMapWindow none s).1.meshVisible = !s.mapWindowVisible
      ∧ ∀ v : Bool, modalToggle v = (!v, !v) := by
  intro s
  exact ⟨rfl, rfl, rfl, rfl, rfl, rfl, fun v => rfl⟩

/-- C9: toggling a panel or modal that was never created changes no state,
raises no error (the operations are total functions) and returns `false`. -/
theorem toggle_missing_panel_noop :
    ∀ s : AppState,
      (s.actionButtons = none → s.toggleActionButtons = (s, false))
      ∧ (s.mapModal = none → s.toggleMapModal = (s, false)) := by
  intro s
  constructor
  · intro h; simp [AppState.toggleActionButtons, h]
  · intro h; simp [AppState.toggleMapModal, h]

/-- Witness for C9: in a state where neither component was created, both
toggles return `false` and leave the state untouched. -/
theorem toggle_missing_panel_noop_witness :
    ({ AppState.init with actionButtons := none, mapModal := none }
        : AppState).toggleActionButtons
      = ({ AppState.init with actionButtons := none, mapModal := none },
         false)
    ∧ ({ AppState.init with actionButtons := none, mapModal := none }
        : AppState).toggleMapModal
      = ({ AppState.init with actionButtons := none, mapModal := none },
         false) :=
  ⟨(toggle_missing_panel_noop
      { AppState.init with actionButtons := none, mapModal := none }).1 rfl,
   (toggle_missing_panel_noop
      { AppState.init with actionButtons := none, mapModal := none }).2 rfl⟩

lemma mapHas_iff (m : List (String × ℕ)) (id : String) :
    mapHas m id = true ↔ id ∈ m.map Prod.fst := by
  simp [mapHas, List.any_eq_true, List.mem_map, beq_iff_eq]

lemma mapGet_mem {m : List (String × ℕ)} {id : String} {c : ℕ}
    (h : mapGet m id = some c) : c ∈ m.map Prod.snd := by
  simp only [mapGet, Option.map_eq_some'] at h
  obtain ⟨p, hp, rfl⟩ := h
  exact List.mem_map_of_mem Prod.snd (List.mem_of_find?_eq_some hp)

lemma mapGet_some_has {m : List (String × ℕ)} {id : String} {c : ℕ}
    (h : mapGet m id = some c) : mapHas m id = true := by
  simp only [mapGet, Option.map_eq_some'] at h
  obtain ⟨p, hp, -⟩ := h
  have h1 := List.mem_of_find?_eq_some hp
  have h2 := List.find?_some hp
  exact List.any_eq_true.mpr ⟨p, h1, h2⟩

lemma mapHas_some {m : List (String × ℕ)} {id : String}
    (h : mapHas m id = true) : ∃ c, mapGet m id = some c := by
  simp only [mapHas, List.any_eq_true] at h
  have hs : (List.find? (fun p => p.1 == id) m).isSome = true :=
    List.find?_isSome.mpr h
  obtain ⟨q, hq⟩ := Option.isSome_iff_exists.mp hs
  exact ⟨q.2, by simp [mapGet, hq]⟩

lemma mapGet_append_absent {m : List (String × ℕ)} {id : String} (v : ℕ)
    (h : id ∉ m.map Prod.fst) :
    mapGet (m ++ [(id, v)]) id = some v := by
  induction m with
  | nil => simp [mapGet, List.find?]
  | cons p t ih =>
    simp only [List.map_cons, List.mem_cons, not_or] at h
    have hne : (p.1 == id) = false := by
      simp [Ne.symm h.1, h.1]
    simp only [List.cons_append, mapGet, List.find?]
    rw [hne]
    exact ih h.2

lemma keys_delete_nodup {m : List (String × ℕ)} {id : String}
    (h : (m.map Prod.fst).Nodup) :
    ((mapDelete m id).map Prod.fst).Nodup :=
  h.sublist ((List.eraseP_sublist m).map Prod.fst)

lemma snd_delete_sublist (m : List (String × ℕ)) (id : String) :
    List.Sublist ((mapDelete m id).map Prod.snd) (m.map Prod.snd) :=
  (List.eraseP_sublist m).map Prod.snd

lemma mapHas_delete {m : List (String × ℕ)} {id : String}
    (h : (m.map Prod.fst).Nodup) :
    mapHas (mapDelete m id) id = false := by
  induction m with
  | nil => rfl
  | cons p t ih =>
    simp only [List.map_cons, List.nodup_cons] at h
    by_cases hp : (p.1 == id) = true
    · have hid : p.1 = id := by simpa using hp
      have hnot : id ∉ t.map Prod.fst := hid ▸ h.1
      have hdel : mapDelete (p :: t) id = t := by
        simp [mapDelete, List.eraseP_cons, hp]
      rw [hdel, ← Bool.not_eq_true, mapHas_iff]
      exact hnot
    · have hp' : (p.1 == id) = false := by simpa using hp
      have hdel : mapDelete (p :: t) id = p :: mapDelete t id := by
        simp [mapDelete, List.eraseP_cons, hp']
      rw [hdel]
      simp only [mapHas, List.any_cons, hp', Bool.false_or]
      exact ih h.2

lemma snd_delete_of_get {m : List (String × ℕ)} {id : String} {c : ℕ}
    (hget : mapGet m id = some c) (hnd : (m.map Prod.snd).Nodup) :
    (mapDelete m id).map Prod.snd = (m.map Prod.snd).erase c := by
  induction m with
  | nil => simp [mapGet, List.find?] at hget
  | cons p t ih =>
    simp only [List.map_cons, List.nodup_cons] at hnd
    by_cases hp : (p.1 == id) = true
    · have hc : p.2 = c := by
        simp only [mapGet, List.find?, hp, Option.map_some'] at hget
        exact Option.some.inj hget
      have hdel : mapDelete (p :: t) id = t := by
        simp [mapDelete, List.eraseP_cons, hp]
      rw [hdel, List.map_cons, hc, List.erase_cons_head]
    · have hp' : (p.1 == id) = false := by simpa using hp
      have hget' : mapGet t id = some c := by
        simpa only [mapGet, List.find?, hp'] using hget
      have hmem : c ∈ t.map Prod.snd := mapGet_mem hget'
      have hne : p.2 ≠ c := fun he => hnd.1 (he ▸ hmem)
      have hdel : mapDelete (p :: t) id = p :: mapDelete t id := by
        simp [mapDelete, List.eraseP_cons, hp']
      rw [hdel, List.map_cons, List.map_cons,
        List.erase_cons_tail (by simpa using hne), ih hget' hnd.2]

lemma registryInv_remove (id : String) (s : SpaceUIRegistry)
    (h : RegistryInv s) : RegistryInv (removeComponent id s) := by
  obtain ⟨h1, h2, h3, h4⟩ := h
  cases hget : mapGet s.components id with
  | none => simpa [removeComponent, hget] using ⟨h1, h2, h3, h4⟩
  | some c =>
    simp only [removeComponent, hget]
    refine ⟨?_, keys_delete_nodup h2, h3.sublist (snd_delete_sublist _ _),
      fun d hd => h4 d ((snd_delete_sublist _ _).mem hd)⟩
    rw [h1, snd_delete_of_get hget h3]

lemma createComponent_eq (id : String) (s : SpaceUIRegistry) :
    createComponent id s
      = (let s1 := if mapHas s.components id then removeComponent id s
                   else s
         { s1 with
           components := mapSet s1.components id s1.nextComp
           rootChildren := s1.rootChildren ++ [s1.nextComp]
           nextComp := s1.nextComp + 1 }) := rfl

lemma registryInv_create (id : String) (s : SpaceUIRegistry)
    (h : RegistryInv s) : RegistryInv (createComponent id s) := by
  have key : ∀ s1 : SpaceUIRegistry, RegistryInv s1 →
      mapHas s1.components id = false →
      RegistryInv
        { s1 with
          components := mapSet s1.components id s1.nextComp
          rootChildren := s1.rootChildren ++ [s1.nextComp]
          nextComp := s1.nextComp + 1 } := by
    intro s1 ⟨h1, h2, h3, h4⟩ hhas
    have habs : id ∉ s1.components.map Prod.fst := by
      rw [← mapHas_iff, hhas]; simp
    have hfresh : s1.nextComp ∉ s1.components.map Prod.snd :=
      fun hmem => lt_irrefl _ (h4 _ hmem)
    refine ⟨?_, ?_, ?_, ?_⟩
    · simp only [mapSet, hhas, if_false, List.map_append, List.map_cons,
        List.map_nil, Bool.false_eq_true]
      rw [h1]
    · simp only [mapSet, hhas, if_false, List.map_append, List.map_cons,
        List.map_nil, Bool.false_eq_true]
      rw [List.nodup_append]
      exact ⟨h2, List.nodup_singleton id,
        fun a ha hb => habs (List.mem_singleton.mp hb ▸ ha)⟩
    · simp only [mapSet, hhas, if_false, List.map_append, List.map_cons,
        List.map_nil, Bool.false_eq_true]
      rw [List.nodup_append]
      exact ⟨h3, List.nodup_singleton _,
        fun a ha hb => hfresh (List.mem_singleton.mp hb ▸ ha)⟩
    · intro c hc
      simp only [mapSet, hhas, if_false, List.map_append, List.map_cons,
        List.map_nil, List.mem_append, List.mem_singleton,
        Bool.false_eq_true] at hc
      rcases hc with hc | rfl
      · exact lt_trans (h4 c hc) (lt_add_one _)
      · exact lt_add_one _
  rw [createComponent_eq]
  by_cases hhas : mapHas s.components id = true
  · simp only [hhas, if_true]
    obtain ⟨c, hget⟩ := mapHas_some hhas
    refine key _ (registryInv_remove id s h) ?_
    simp only [removeComponent, hget]
    exact mapHas_delete h.2.1
  · have hhas' : mapHas s.components id = false := by
      simpa using hhas
    simp only [hhas', if_false, Bool.false_eq_true]
    exact key s h hhas'

lemma registryInv_runOps (ops : List UIOp) :
    ∀ s : SpaceUIRegistry, RegistryInv s → RegistryInv (runOps ops s) := by
  induction ops with
  | nil => intro s h; exact h
  | cons op rest ih =>
    intro s h
    cases op with
    | create id => exact ih _ (registryInv_create id s h)
    | remove id => exact ih _ (registryInv_remove id s h)

lemma registryInv_init : RegistryInv SpaceUIRegistry.init :=
  ⟨rfl, List.nodup_nil, List.nodup_nil, by simp [SpaceUIRegistry.init]⟩

/-- C10: after any sequence of `createComponent` / `removeComponent` calls
on a fresh `SpaceUI`, each id is registered at most once and every
registered component is a child of the root group; and `createComponent`
on an already-registered id disposes the previous component, detaches it
from the root, and registers the freshly allocated component under the id,
preserving the registry invariant. -/
theorem registry_unique_ids_and_root :
    (∀ ops : List UIOp,
        ((runOps ops SpaceUIRegistry.init).components.map Prod.fst).Nodup
        ∧ ∀ p ∈ (runOps ops SpaceUIRegistry.init).components,
            p.2 ∈ (runOps ops SpaceUIRegistry.init).rootChildren)
    ∧ ∀ (s : SpaceUIRegistry) (id : String) (old : ℕ),
        RegistryInv s → mapGet s.components id = some old →
        old ∈ (createComponent id s).disposed
        ∧ old ∉ (createComponent id s).rootChildren
        ∧ mapGet (createComponent id s).components id = some s.nextComp
        ∧ RegistryInv (createComponent id s) := by
  constructor
  · intro ops
    obtain ⟨h1, h2, h3, h4⟩ := registryInv_runOps ops _ registryInv_init
    exact ⟨h2, fun p hp => h1 ▸ List.mem_map_of_mem Prod.snd hp⟩
  · intro s id old hinv hget
    have hhas : mapHas s.components id = true := mapGet_some_has hget
    have hmem : old ∈ s.components.map Prod.snd := mapGet_mem hget
    have hold : old < s.nextComp := hinv.2.2.2 old hmem
    have hne : old ≠ s.nextComp := ne_of_lt hold
    have habs : id ∉ (mapDelete s.components id).map Prod.fst := by
      rw [← mapHas_iff, mapHas_delete hinv.2.1]
      simp
    refine ⟨?_, ?_, ?_, registryInv_create id s hinv⟩
    · rw [createComponent_eq]
      simp only [hhas, if_true, removeComponent, hget, List.mem_append,
        List.mem_singleton]
      simp
    · rw [createComponent_eq]
      simp only [hhas, if_true, removeComponent, hget, List.mem_append,
        List.mem_singleton]
      rw [hinv.1]
      rintro (hc | rfl)
      · exact (hinv.2.2.1.not_mem_erase) (hc : old ∈ _) |>.elim
      · exact hne rfl
    · rw [createComponent_eq]
      simp only [hhas, if_true, removeComponent, hget]
      simp only [mapSet, mapHas_delete hinv.2.1, if_false,
        Bool.false_eq_true]
      exact mapGet_append_absent _ habs

/-- Witness for C10: create `"a"`, then create `"a"` again: the original
component 0 is disposed and detached, and the id maps to the fresh
component 1. -/
theorem registry_unique_ids_and_root_witness :
    0 ∈ (createComponent "a" (createComponent "a"
          SpaceUIRegistry.init)).disposed
    ∧ 0 ∉ (createComponent "a" (createComponent "a"
          SpaceUIRegistry.init)).rootChildren
    ∧ mapGet (createComponent "a" (createComponent "a"
          SpaceUIRegistry.init)).components "a"
        = some (createComponent "a" SpaceUIRegistry.init).nextComp
    ∧ RegistryInv (createComponent "a" (createComponent "a"
          SpaceUIRegistry.init)) :=
  registry_unique_ids_and_root.2 (createComponent "a" SpaceUIRegistry.init)
    "a" 0 (by decide) (by decide)

end NasaSuits
